import Mathlib

set_option maxRecDepth 10000

/-!
Shallow embedding of the ISO 8601 date/time library in
src/lib/common/iso8601.c (Pacemaker), together with theorems settling the
specification claims about it.  C `int` values are modelled as unbounded
`Int` (no claim here exercises 32-bit wraparound); C `%` and `/` on `int`
are truncated, modelled with `Int.tmod` / `Int.tdiv`.  The C while loops
are modelled by structural recursion on an explicit `Nat` bound that
over-approximates the number of iterations; for each loop a lemma below
shows that the bound is never exhausted, so the fuelled recursion computes
exactly the C loop.
-/


/-- The struct crm_time_s of iso8601.c: years, months (only for durations),
ordinal day-of-year, seconds within day, timezone offset in seconds, and
the duration tag. -/
structure CrmTime where
  years : Int
  months : Int
  days : Int
  seconds : Int
  offset : Int
  duration : Bool
deriving DecidableEq, Repr

/-- crm_time_leapyear: year % 4 == 0, except years divisible by 100 but
not by 400 (C truncated %). -/
def crm_time_leapyear (year : Int) : Bool :=
  let is_leap := decide (year.tmod 4 = 0)
  if year.tmod 100 = 0 ∧ year.tmod 400 ≠ 0 then false else is_leap

/-- year_days: 366 in leap years, else 365. -/
def year_days (year : Int) : Int :=
  if crm_time_leapyear year then 366 else 365

/-- The month_days lookup table (index 13 is leap-February); an
out-of-range index is undefined behaviour in C, modelled as 0. -/
def month_days (m : Int) : Int :=
  if m = 1 then 31
  else if m = 2 then 28
  else if m = 3 then 31
  else if m = 4 then 30
  else if m = 5 then 31
  else if m = 6 then 30
  else if m = 7 then 31
  else if m = 8 then 31
  else if m = 9 then 30
  else if m = 10 then 31
  else if m = 11 then 30
  else if m = 12 then 31
  else if m = 13 then 29
  else 0

/-- crm_time_days_in_month: table lookup, redirecting February of a leap
year to slot 13. -/
def crm_time_days_in_month (month year : Int) : Int :=
  let month := if month = 2 ∧ crm_time_leapyear year then 13 else month
  month_days month

/-- crm_time_january1_weekday: Zeller-style formula, Monday=1 .. Sunday=7
(C truncated / and %). -/
def crm_time_january1_weekday (year : Int) : Int :=
  let yy := (year - 1).tmod 100
  let c := (year - 1) - yy
  let g := yy + yy.tdiv 4
  1 + ((((c.tdiv 100).tmod 4) * 5 + g).tmod 7)

/-- crm_time_weeks_in_year: 53 when Jan 1 is a Thursday or Jan 1 of the
next year is a Friday, else 52. -/
def crm_time_weeks_in_year (year : Int) : Int :=
  let jan1 := crm_time_january1_weekday year
  if jan1 = 4 then 53
  else if crm_time_january1_weekday (year + 1) = 5 then 53
  else 52

/-- The loop of get_ordinal_days — for (lpc = 1; lpc < m; lpc++)
d += crm_time_days_in_month(lpc, y) — with an iteration bound. -/
def ordinalLoopF (y : Int) : Nat → Int → Int → Int → Int
  | 0, _, _, d => d
  | fuel + 1, lpc, m, d =>
    if lpc < m then ordinalLoopF y fuel (lpc + 1) m (d + crm_time_days_in_month lpc y)
    else d

/-- get_ordinal_days: day-of-year from a Gregorian (y, m, d); the loop
runs exactly max (m - 1) 0 times. -/
def get_ordinal_days (y m d : Int) : Int := ordinalLoopF y (m - 1).toNat 1 m d

/-- The month-finding loop of crm_time_get_gregorian —
for (months = 1; months <= 12 && days > 0; months++) with break when the
current month holds the remaining days — with an iteration bound. -/
def gregFindF (y : Int) : Nat → Int → Int → Int × Int
  | 0, months, days => (months, days)
  | fuel + 1, months, days =>
    if months ≤ 12 ∧ days > 0 then
      let mdays := crm_time_days_in_month months y
      if mdays ≥ days then (months, days)
      else gregFindF y fuel (months + 1) (days - mdays)
    else (months, days)

/-- The month-finding loop starting at month 1; at most 12 iterations. -/
def gregFind (y days : Int) : Int × Int := gregFindF y 12 1 days

/-- crm_time_get_gregorian: for a dated value, walk the months; for a
months-only duration keep the months field; else month 0. -/
def crm_time_get_gregorian (dt : CrmTime) : Int × Int × Int :=
  if dt.years ≠ 0 then
    let md := gregFind dt.years dt.days
    (dt.years, md.1, md.2)
  else if dt.months ≠ 0 then
    (dt.years, dt.months, dt.days)
  else
    (dt.years, 0, dt.days)

/-- The first loop of crm_time_add_days — while (days > ydays) carry a
year forward, ydays being the day count of the year left behind — with an
iteration bound (each iteration removes at least 365 days). -/
def carryForwardF : Nat → Int → Int → Int × Int
  | 0, y, d => (y, d)
  | fuel + 1, y, d =>
    if d > year_days y then carryForwardF fuel (y + 1) (d - year_days y)
    else (y, d)

/-- The second loop of crm_time_add_days — while (days < lower_bound)
borrow a year back, adding that year's day count — with an iteration
bound (each iteration adds at least 365 days). -/
def carryBackF (lb : Int) : Nat → Int → Int → Int × Int
  | 0, y, d => (y, d)
  | fuel + 1, y, d =>
    if d < lb then carryBackF lb fuel (y - 1) (d + year_days (y - 1))
    else (y, d)

/-- crm_time_add_days: add to the days field, then normalize with the two
carry loops; the lower bound is 0 for durations and 1 for dates. -/
def crm_time_add_days (a : CrmTime) (extra : Int) : CrmTime :=
  let lower_bound : Int := if a.duration then 0 else 1
  let d0 := a.days + extra
  let yd := carryForwardF d0.toNat a.years d0
  let yd := carryBackF lower_bound (lower_bound - yd.2).toNat yd.1 yd.2
  { a with years := yd.1, days := yd.2 }

/-- The first loop of crm_time_add_seconds — while (seconds >= 86400)
drop a day's worth, counting a day — with an iteration bound. -/
def secNormUpF : Nat → Int → Int → Int × Int
  | 0, s, dd => (s, dd)
  | fuel + 1, s, dd =>
    if s ≥ 24 * 60 * 60 then secNormUpF fuel (s - 24 * 60 * 60) (dd + 1)
    else (s, dd)

/-- The second loop of crm_time_add_seconds — while (seconds < 0) add a
day's worth, counting a day back — with an iteration bound. -/
def secNormDownF : Nat → Int → Int → Int × Int
  | 0, s, dd => (s, dd)
  | fuel + 1, s, dd =>
    if s < 0 then secNormDownF fuel (s + 24 * 60 * 60) (dd - 1)
    else (s, dd)

/-- crm_time_add_seconds: add to the seconds field, normalize into
[0, 86400) counting whole days, then delegate the day carry to
crm_time_add_days. -/
def crm_time_add_seconds (a : CrmTime) (extra : Int) : CrmTime :=
  let s0 := a.seconds + extra
  let sd := secNormUpF s0.toNat s0 0
  let sd := secNormDownF (-sd.1).toNat sd.1 sd.2
  crm_time_add_days { a with seconds := sd.1 } sd.2

/-- The month-increment loop of crm_time_add_months
(m++, rolling 13 over to 1 with a year carry); runs extra times. -/
def stepMonthsUp (y m : Int) : Nat → Int × Int
  | 0 => (y, m)
  | n + 1 =>
    let m := m + 1
    if m = 13 then stepMonthsUp (y + 1) 1 n else stepMonthsUp y m n

/-- The month-decrement loop of crm_time_add_months
(m--, rolling 0 back to 12 with a year borrow); runs -extra times. -/
def stepMonthsDown (y m : Int) : Nat → Int × Int
  | 0 => (y, m)
  | n + 1 =>
    let m := m - 1
    if m = 0 then stepMonthsDown (y - 1) 12 n else stepMonthsDown y m n

/-- crm_time_add_months: convert to Gregorian, step the month by one
|extra| times rolling the year, clamp the day of month to the final
month's length, and re-derive the ordinal day. -/
def crm_time_add_months (a : CrmTime) (extra : Int) : CrmTime :=
  let ymd := crm_time_get_gregorian a
  let y := ymd.1
  let m := ymd.2.1
  let d := ymd.2.2
  let ym := if extra > 0 then stepMonthsUp y m extra.toNat
            else stepMonthsDown y m (-extra).toNat
  let dmax := crm_time_days_in_month ym.2 ym.1
  let d := if dmax < d then dmax else d
  { a with years := ym.1, days := get_ordinal_days ym.1 ym.2 d }

/-- crm_time_add_minutes delegates to crm_time_add_seconds. -/
def crm_time_add_minutes (a : CrmTime) (extra : Int) : CrmTime :=
  crm_time_add_seconds a (extra * 60)

/-- crm_time_add_hours delegates to crm_time_add_seconds. -/
def crm_time_add_hours (a : CrmTime) (extra : Int) : CrmTime :=
  crm_time_add_seconds a (extra * 60 * 60)

/-- crm_time_add_weeks delegates to crm_time_add_days. -/
def crm_time_add_weeks (a : CrmTime) (extra : Int) : CrmTime :=
  crm_time_add_days a (extra * 7)

/-- crm_time_add_years: adds directly to the years field, with no
normalization of the days field. -/
def crm_time_add_years (a : CrmTime) (extra : Int) : CrmTime :=
  { a with years := a.years + extra }

/-- crm_get_utc_time: copy years/days/seconds with offset 0 (a calloc'd
copy, so months and the duration flag start at zero), subtract the offset
when there is one, else keep the months field. -/
def crm_get_utc_time (dt : CrmTime) : CrmTime :=
  let utc : CrmTime := ⟨dt.years, 0, dt.days, dt.seconds, 0, false⟩
  if dt.offset ≠ 0 then crm_time_add_seconds utc (-dt.offset)
  else { utc with months := dt.months }

/-- crm_time_check: ordinal day within [1, year_days] and seconds within
[0, 86400). -/
def crm_time_check (dt : CrmTime) : Bool :=
  let ydays := year_days dt.years
  decide (dt.days > 0 ∧ dt.days ≤ ydays ∧ dt.seconds ≥ 0 ∧ dt.seconds < 24 * 60 * 60)

/-- crm_time_set: copy the five value fields (the target's duration flag
is left as is; callers pass a calloc'd target, modelled by the explicit
target argument). -/
def crm_time_set (target source : CrmTime) : CrmTime :=
  { target with
    years := source.years
    days := source.days
    months := source.months
    seconds := source.seconds
    offset := source.offset }

/-- crm_time_add: copy the instant, UTC-normalize the right-hand side,
then add years, months, days and seconds in that order. -/
def crm_time_add (dt value : CrmTime) : CrmTime :=
  let answer := crm_time_set ⟨0, 0, 0, 0, 0, false⟩ dt
  let utc := crm_get_utc_time value
  let answer := { answer with years := answer.years + utc.years }
  let answer := crm_time_add_months answer utc.months
  let answer := crm_time_add_days answer utc.days
  let answer := crm_time_add_seconds answer utc.seconds
  answer

/-- crm_time_subtract: copy the instant, UTC-normalize the right-hand
side, subtract years, then months (only when non-zero), days and
seconds. -/
def crm_time_subtract (dt value : CrmTime) : CrmTime :=
  let answer := crm_time_set ⟨0, 0, 0, 0, 0, false⟩ dt
  let utc := crm_get_utc_time value
  let answer := { answer with years := answer.years - utc.years }
  let answer := if utc.months ≠ 0 then crm_time_add_months answer (-utc.months)
                else answer
  let answer := crm_time_add_days answer (-utc.days)
  let answer := crm_time_add_seconds answer (-utc.seconds)
  answer

/-- crm_time_calculate_duration: UTC-normalize both, subtract field-wise
on a copy tagged as a duration. -/
def crm_time_calculate_duration (dt value : CrmTime) : CrmTime :=
  let utc := crm_get_utc_time value
  let answer := crm_get_utc_time dt
  let answer := { answer with duration := true }
  let answer := { answer with years := answer.years - utc.years }
  let answer := if utc.months ≠ 0 then crm_time_add_months answer (-utc.months)
                else answer
  let answer := crm_time_add_days answer (-utc.days)
  let answer := crm_time_add_seconds answer (-utc.seconds)
  answer

/-- The do_cmp_field macro: once a difference is found, rc sticks. -/
def do_cmp_field (rc l r : Int) : Int :=
  if rc = 0 then
    if l > r then 1 else if l < r then -1 else 0
  else rc

/-- crm_time_compare: nulls (both null equal, one null less), else
UTC-normalize both and compare years, then days, then seconds. -/
def crm_time_compare (a b : Option CrmTime) : Int :=
  match a, b with
  | none, none => 0
  | none, some _ => -1
  | some _, none => 1
  | some a, some b =>
    let t1 := crm_get_utc_time a
    let t2 := crm_get_utc_time b
    let rc := do_cmp_field 0 t1.years t2.years
    let rc := do_cmp_field rc t1.days t2.days
    let rc := do_cmp_field rc t1.seconds t2.seconds
    rc

-- Sanity examples kept from development.

/-!
The parser.  sscanf-style scanning is modelled over `List Char`, one
definition per format string used by iso8601.c.  A `%d` conversion skips
leading whitespace, accepts an optional sign and then at least one digit;
a width bound counts the sign and the digits.  Each scanner returns the C
sscanf return value (the number of successful conversions) together with
the values of the scanned variables, whose previous values are threaded
through as the initial arguments exactly as the C locals persist across
consecutive sscanf calls.
-/

/-- Digit run of a %d conversion: consume at most `width` digits
(`none` = unlimited), accumulating the decimal value. -/
def scanDigits (width : Option Nat) (acc : Int) : List Char → Int × Nat × List Char
  | [] => (acc, 0, [])
  | c :: cs =>
    if width = some 0 then (acc, 0, c :: cs)
    else if c.isDigit then
      let r := scanDigits (width.map (· - 1)) (acc * 10 + ((c.toNat : Int) - 48)) cs
      (r.1, r.2.1 + 1, r.2.2)
    else (acc, 0, c :: cs)

/-- One %d conversion: skip whitespace, optional sign (counted against
the width), then at least one digit; `none` on matching failure. -/
def scanIntW (width : Option Nat) (cs : List Char) : Option (Int × List Char) :=
  let cs := cs.dropWhile Char.isWhitespace
  match cs with
  | '-' :: rest =>
    if width = some 0 ∨ width = some 1 then none
    else
      let r := scanDigits (width.map (· - 1)) 0 rest
      if r.2.1 = 0 then none else some (-r.1, r.2.2)
  | '+' :: rest =>
    if width = some 0 ∨ width = some 1 then none
    else
      let r := scanDigits (width.map (· - 1)) 0 rest
      if r.2.1 = 0 then none else some (r.1, r.2.2)
  | _ =>
    let r := scanDigits width 0 cs
    if r.2.1 = 0 then none else some (r.1, r.2.2)

/-- sscanf(str, "%d-%d-%d", &year, &month, &day). -/
def scanFmtDMD (cs : List Char) (y0 m0 d0 : Int) : Nat × Int × Int × Int :=
  match scanIntW none cs with
  | none => (0, y0, m0, d0)
  | some (y, r1) =>
    match r1 with
    | '-' :: r2 =>
      match scanIntW none r2 with
      | none => (1, y, m0, d0)
      | some (m, r3) =>
        match r3 with
        | '-' :: r4 =>
          match scanIntW none r4 with
          | none => (2, y, m, d0)
          | some (d, _) => (3, y, m, d)
        | _ => (2, y, m, d0)
    | _ => (1, y, m0, d0)

/-- sscanf(str, "%4d%2d%2d", &year, &month, &day). -/
def scanFmtCompactDate (cs : List Char) (y0 m0 d0 : Int) : Nat × Int × Int × Int :=
  match scanIntW (some 4) cs with
  | none => (0, y0, m0, d0)
  | some (y, r1) =>
    match scanIntW (some 2) r1 with
    | none => (1, y, m0, d0)
    | some (m, r2) =>
      match scanIntW (some 2) r2 with
      | none => (2, y, m, d0)
      | some (d, _) => (3, y, m, d)

/-- sscanf(str, "%d-%d", &year, &day). -/
def scanFmtOrdinal (cs : List Char) (y0 d0 : Int) : Nat × Int × Int :=
  match scanIntW none cs with
  | none => (0, y0, d0)
  | some (y, r1) =>
    match r1 with
    | '-' :: r2 =>
      match scanIntW none r2 with
      | none => (1, y, d0)
      | some (d, _) => (2, y, d)
    | _ => (1, y, d0)

/-- sscanf(str, "%d-W%d-%d", &year, &week, &day). -/
def scanFmtWeek (cs : List Char) (y0 w0 d0 : Int) : Nat × Int × Int × Int :=
  match scanIntW none cs with
  | none => (0, y0, w0, d0)
  | some (y, r1) =>
    match r1 with
    | '-' :: 'W' :: r2 =>
      match scanIntW none r2 with
      | none => (1, y, w0, d0)
      | some (w, r3) =>
        match r3 with
        | '-' :: r4 =>
          match scanIntW none r4 with
          | none => (2, y, w, d0)
          | some (d, _) => (3, y, w, d)
        | _ => (2, y, w, d0)
    | _ => (1, y, w0, d0)

/-- sscanf(str, "%d:%d:%d", &hour, &minute, &second). -/
def scanFmtTimeColon (cs : List Char) (h0 m0 s0 : Int) : Nat × Int × Int × Int :=
  match scanIntW none cs with
  | none => (0, h0, m0, s0)
  | some (h, r1) =>
    match r1 with
    | ':' :: r2 =>
      match scanIntW none r2 with
      | none => (1, h, m0, s0)
      | some (m, r3) =>
        match r3 with
        | ':' :: r4 =>
          match scanIntW none r4 with
          | none => (2, h, m, s0)
          | some (s, _) => (3, h, m, s)
        | _ => (2, h, m, s0)
    | _ => (1, h, m0, s0)

/-- sscanf(str, "%2d%2d%2d", &hour, &minute, &second). -/
def scanFmtTimeCompact (cs : List Char) (h0 m0 s0 : Int) : Nat × Int × Int × Int :=
  match scanIntW (some 2) cs with
  | none => (0, h0, m0, s0)
  | some (h, r1) =>
    match scanIntW (some 2) r1 with
    | none => (1, h, m0, s0)
    | some (m, r2) =>
      match scanIntW (some 2) r2 with
      | none => (2, h, m, s0)
      | some (s, _) => (3, h, m, s)

/-- crm_time_parse_sec: try "%d:%d:%d", fall back to "%2d%2d%2d" when
only one field matched; reject out-of-range fields by returning the bare
seconds value, else return h*3600 + m*60 + s. -/
def crm_time_parse_sec (cs : List Char) : Int :=
  let r := scanFmtTimeColon cs 0 0 0
  let r := if r.1 = 1 then scanFmtTimeCompact cs r.2.1 r.2.2.1 r.2.2.2 else r
  let rc := r.1
  let hour := r.2.1
  let minute := r.2.2.1
  let second := r.2.2.2
  if rc > 0 ∧ rc < 4 then
    if hour ≥ 24 then second
    else if minute ≥ 60 then second
    else if second ≥ 60 then second
    else second + minute * 60 + hour * 60 * 60
  else second

/-- strstr with a one-character needle: the suffix starting at the first
occurrence, if any. -/
def findSuffix (c : Char) : List Char → Option (List Char)
  | [] => none
  | x :: xs => if x = c then some (x :: xs) else findSuffix c xs

/-- crm_time_parse_offset: with no offset string the host's current local
offset is used — that ambient value is the `ambient` parameter here
(the GMTOFF hour/minute decomposition is host state outside the model).
A leading Z means 0; a plus, minus or digit form is crm_time_parse_sec, negated
after a consumed minus sign. -/
def crm_time_parse_offset (ambient : Int) (o : Option (List Char)) : Int :=
  match o with
  | none => ambient
  | some cs =>
    match cs with
    | [] => 0
    | c :: rest =>
      if c = 'Z' then 0
      else if c = '+' ∨ c = '-' ∨ c.isDigit then
        let negate := c = '-'
        let offset := crm_time_parse_sec (if negate then rest else c :: rest)
        if negate then -offset else offset
      else 0

/-- crm_time_parse: parse the time-of-day into dt->seconds, then look for
a timezone suffix introduced by a literal Z or by a space (nothing else
is recognized), skip blanks, and parse it — or fall back to the ambient
host offset when none was found. -/
def crm_time_parse (ambient : Int) (time_str : Option (List Char)) (dt : CrmTime) : CrmTime :=
  let dt := match time_str with
    | some cs => { dt with seconds := crm_time_parse_sec cs }
    | none => dt
  let offset_s := match time_str with
    | some cs => (findSuffix 'Z' cs).orElse (fun _ => findSuffix ' ' cs)
    | none => none
  let offset_s := offset_s.map (List.dropWhile Char.isWhitespace)
  { dt with offset := crm_time_parse_offset ambient offset_s }

/-- ASCII lower-casing of one character, as tolower does for the inputs
at hand. -/
def toLowerC (c : Char) : Char :=
  if 'A' ≤ c ∧ c ≤ 'Z' then Char.ofNat (c.toNat + 32) else c

/-- safe_str_eq (defined outside src/): a null-safe case-insensitive
string comparison (strcasecmp). -/
def safe_str_eq (a b : String) : Bool :=
  decide (a.toList.map toLowerC = b.toList.map toLowerC)

/-- The ISO week branch of parse_date: set the year on the zeroed value,
then add (week-1)*7 days, the January-1 alignment, and the weekday. -/
def parseWeekBranch (year week day : Int) : CrmTime :=
  let jan1 := crm_time_january1_weekday year
  let dt : CrmTime := ⟨year, 0, 0, 0, 0, false⟩
  let dt := crm_time_add_days dt ((week - 1) * 7)
  let dt := if jan1 ≤ 4 then crm_time_add_days dt (1 - jan1)
            else crm_time_add_days dt (8 - jan1)
  crm_time_add_days dt day

/-- The done label of parse_date: find the date/time separator (space or
T) in the original string, parse what follows it as a time-of-day, and
reject the result unless crm_time_check accepts it. -/
def finishDate (ambient : Int) (cs : List Char) (dt : CrmTime) : Option CrmTime :=
  let time_s := (findSuffix ' ' cs).orElse (fun _ => findSuffix 'T' cs)
  let dt := match time_s with
    | some (_ :: rest) => crm_time_parse ambient (some rest) dt
    | some [] => dt
    | none => dt
  if crm_time_check dt then some dt else none

/-- parse_date.  The `ambient` parameter is the host's local timezone
offset (read by crm_time_parse_offset when no suffix is present) and
`now` is the current wall-clock value that crm_time_new(NULL) would
produce for the time-only branch; both are host state outside the model.
safe_str_eq (defined outside src/) compares case-insensitively. -/
def parse_date (ambient : Int) (now : CrmTime) (date_str : String) : Option CrmTime :=
  let cs := date_str.toList
  if cs.length = 0 then none
  else if cs.headD ' ' = 'T' ∨ cs.getD 2 ' ' = ':' then
    let dt := crm_time_parse ambient (some cs) now
    finishDate ambient cs dt
  else if safe_str_eq ("epoch") date_str then
    some ⟨1970, 0, 1, 0, 0, false⟩
  else
    let dt0 : CrmTime := ⟨0, 0, 0, 0, 0, false⟩
    let g := scanFmtDMD cs 0 0 0
    let g := if g.1 = 1 then scanFmtCompactDate cs g.2.1 g.2.2.1 g.2.2.2 else g
    if g.1 = 3 then
      let year := g.2.1
      let month := g.2.2.1
      let day := g.2.2.2
      if month > 12 then finishDate ambient cs dt0
      else if day > 31 then finishDate ambient cs dt0
      else finishDate ambient cs { dt0 with years := year, days := get_ordinal_days year month day }
    else
      let o := scanFmtOrdinal cs g.2.1 g.2.2.2
      if o.1 = 2 then
        let year := o.2.1
        let day := o.2.2
        if day > year_days year then finishDate ambient cs dt0
        else finishDate ambient cs { dt0 with years := year, days := day }
      else
        let w := scanFmtWeek cs o.2.1 0 o.2.2
        if w.1 = 3 then
          let year := w.2.1
          let week := w.2.2.1
          let day := w.2.2.2
          if week > crm_time_weeks_in_year year then finishDate ambient cs dt0
          else if day < 1 ∨ day > 7 then finishDate ambient cs dt0
          else finishDate ambient cs (parseWeekBranch year week day)
        else finishDate ambient cs dt0

/-!
Duration parsing.  parse_int follows the C function, including its
fractional branch where `10 ^ lpc` is C bitwise xor (and division by the
xor value 0 — undefined in C — is Lean's `Int.tdiv _ 0 = 0`).
-/

/-- The digit loop of parse_int: while (fraction or within the field
width) and the character is a digit, accumulate; returns the value and
the number of digits consumed. -/
def parseIntDigits (fraction : Bool) (field_width : Int) : Nat → Int → List Char → Int × Nat
  | _, result, [] => (result, 0)
  | lpc, result, c :: cs =>
    if (fraction = true ∨ (lpc : Int) < field_width) ∧ c.isDigit then
      let intermediate :=
        if fraction then ((c.toNat : Int) - 48).tdiv ((10 ^^^ lpc : Nat) : Int)
        else (c.toNat : Int) - 48
      let result := if fraction then result + intermediate else result * 10 + intermediate
      let r := parseIntDigits fraction field_width (lpc + 1) result cs
      (r.1, r.2 + 1)
    else (result, 0)

/-- parse_int: optional leading T, then a fraction marker (. or ,) or a
sign or a colon, then digits; fractional values scale by the upper bound,
plain values clamp to it; returns (consumed length, value), consumed 0
meaning failure. -/
def parse_int (cs : List Char) (field_width uppper_bound : Int) : Nat × Int :=
  match cs with
  | [] => (0, 0)
  | _ =>
    let offT : Nat := if cs.headD ' ' = 'T' then 1 else 0
    let cs1 := if cs.headD ' ' = 'T' then cs.tail else cs
    let head := cs1.headD ' '
    let fraction := head = '.' ∨ head = ','
    let negate := head = '-'
    let offMark : Nat := if fraction ∨ negate ∨ head = '+' ∨ head = ':' then 1 else 0
    let field_width := if fraction then -1 else field_width
    let cs2 := if offMark = 1 then cs1.tail else cs1
    let r := parseIntDigits fraction field_width 0 0 cs2
    let result := if fraction then r.1 * uppper_bound
                  else if uppper_bound > 0 ∧ r.1 > uppper_bound then uppper_bound
                  else r.1
    let result := if negate then -result else result
    if r.2 > 0 then (offT + offMark + r.2, result) else (0, result)

/-- The while loop of crm_time_parse_duration; each iteration consumes at
least the scanned integer (one or more characters) plus its unit letter,
so the fuel — the remaining string length — is never exhausted. -/
def durLoopF : Nat → Bool → CrmTime → List Char → Option CrmTime
  | 0, _, diff, _ => some diff
  | fuel + 1, is_time, diff, cs =>
    match cs with
    | [] => some diff
    | c :: rest =>
      if c.isWhitespace then some diff
      else
        let is_time := if c = 'T' then true else is_time
        let cs := if c = 'T' then rest else c :: rest
        let r := parse_int cs 10 0
        if r.1 = 0 then some diff
        else
          match cs.drop r.1 with
          | [] => some diff
          | ch :: rest2 =>
            if ch = 'Y' then durLoopF fuel is_time { diff with years := r.2 } rest2
            else if ch = 'M' then
              if is_time then
                durLoopF fuel is_time { diff with seconds := diff.seconds + r.2 * 60 } rest2
              else durLoopF fuel is_time { diff with months := r.2 } rest2
            else if ch = 'W' then
              durLoopF fuel is_time { diff with days := diff.days + r.2 * 7 } rest2
            else if ch = 'D' then
              durLoopF fuel is_time { diff with days := diff.days + r.2 } rest2
            else if ch = 'H' then
              durLoopF fuel is_time { diff with seconds := diff.seconds + r.2 * 60 * 60 } rest2
            else if ch = 'S' then
              durLoopF fuel is_time { diff with seconds := diff.seconds + r.2 } rest2
            else none

/-- crm_time_parse_duration: require a leading P, then alternate integers
and unit letters (M is months before the T marker, minutes after it);
null on an unknown unit letter. -/
def crm_time_parse_duration (period_s : String) : Option CrmTime :=
  let cs := period_s.toList
  if cs.length = 0 then none
  else if cs.headD ' ' ≠ 'P' then none
  else durLoopF cs.length false ⟨0, 0, 0, 0, 0, false⟩ cs.tail

/-- An arbitrary current wall-clock value, standing for what
crm_time_new(NULL) would return; none of the parses in the theorems below
reach the branch that uses it. -/
def someNow : CrmTime := ⟨2017, 0, 40, 0, 0, false⟩

-- Parser sanity examples kept from development.

/-!
The formatter and the seconds-from-origin computation.  The flag bits
crm_time_log_date and friends are declared in iso8601.h, which is not
under src/; modelled from the spec as a record of booleans, one per flag.
snprintf number formatting is modelled by decimal rendering with
zero-padding for a "%.Nu" precision (the value cast to uint, i.e. taken
mod 2^32) and space-padding for a "%Nd" width.
-/

/-- Modelled from the spec: the format flag bits of iso8601.h (not under
src/), one boolean per flag of §4.4. -/
structure FormatFlags where
  log_date : Bool
  log_timeofday : Bool
  log_with_timezone : Bool
  log_duration : Bool
  seconds : Bool
  epoch : Bool
  weeks : Bool
  ordinal : Bool
deriving DecidableEq, Repr

/-- The C cast of a signed int to uint. -/
def u32 (i : Int) : Nat := (i % 4294967296).toNat

/-- Zero-pad a rendered number to a minimum number of digits
("%.Nu"). -/
def padZero (w : Nat) (s : String) : String :=
  String.mk (List.replicate (w - s.length) '0') ++ s

/-- Space-pad a rendered number to a minimum field width ("%Nd"). -/
def padSpace (w : Nat) (s : String) : String :=
  String.mk (List.replicate (w - s.length) ' ') ++ s

/-- crm_time_get_sec: split an absolute seconds value into (h, m, s),
computed in unsigned arithmetic on |sec|. -/
def crm_time_get_sec (sec : Int) : Nat × Nat × Nat :=
  let seconds : Nat := if sec < 0 then u32 (0 - sec) else u32 sec
  let hours := seconds / (60 * 60)
  let seconds := seconds - 60 * 60 * hours
  let minutes := seconds / 60
  let seconds := seconds - 60 * minutes
  (hours, minutes, seconds)

/-- crm_time_get_timeofday delegates to crm_time_get_sec on the seconds
field. -/
def crm_time_get_timeofday (dt : CrmTime) : Nat × Nat × Nat :=
  crm_time_get_sec dt.seconds

/-- crm_time_get_ordinal: the (year, day-of-year) pair. -/
def crm_time_get_ordinal (dt : CrmTime) : Int × Int :=
  (dt.years, dt.days)

/-- crm_time_get_isoweek: the ISO (year, week, weekday) triple, following
the numbered steps of the C function; FALSE (none) when days <= 0. -/
def crm_time_get_isoweek (dt : CrmTime) : Option (Int × Int × Int) :=
  let jan1 := crm_time_january1_weekday dt.years
  if dt.days > 0 then
    let h := dt.days + jan1 - 1
    let d := 1 + (h - 1).tmod 7
    let yw :=
      if dt.days ≤ 8 - jan1 ∧ jan1 > 4 then
        (dt.years - 1, crm_time_weeks_in_year (dt.years - 1))
      else (dt.years, 0)
    let yw :=
      if yw.1 = dt.years then
        let dmax := year_days yw.1
        let correction := 4 - d
        if dmax - dt.days < correction then (dt.years + 1, 1) else yw
      else yw
    let w :=
      if yw.1 = dt.years then
        let j := dt.days + (7 - d) + (jan1 - 1)
        let w := j.tdiv 7
        if jan1 > 4 then w - 1 else w
      else yw.2
    some (yw.1, w, d)
  else none

/-- The loop of crm_time_get_seconds —
for (lpc = 1; lpc < years; lpc++) in_seconds += 86400 * year_days(lpc) —
by its exact iteration count. -/
def yearSecondsLoop (in_seconds lpc : Int) : Nat → Int
  | 0 => in_seconds
  | n + 1 => yearSecondsLoop (in_seconds + 60 * 60 * 24 * year_days lpc) (lpc + 1) n

/-- crm_time_get_seconds: UTC-normalize, then whole years since year 1,
a 30-day convention for duration months, whole days, and seconds. -/
def crm_time_get_seconds (dt : CrmTime) : Int :=
  let utc := crm_get_utc_time dt
  let in_seconds := yearSecondsLoop 0 1 (utc.years - 1).toNat
  let in_seconds := if utc.months > 0 then in_seconds + 60 * 60 * 24 * 30 * utc.months
                    else in_seconds
  let in_seconds := if utc.days > 0 then in_seconds + 60 * 60 * 24 * (utc.days - 1)
                    else in_seconds
  in_seconds + utc.seconds

/-- crm_time_get_seconds_since_epoch: subtract the precomputed constant
EPOCH_SECONDS = 62135596800. -/
def crm_time_get_seconds_since_epoch (dt : CrmTime) : Int :=
  crm_time_get_seconds dt - 62135596800

/-- The duration branch of crm_time_as_string: prose with each non-zero
component, mirroring the snprintf chain. -/
def durationProse (dt : CrmTime) : String :=
  let hms := crm_time_get_sec dt.seconds
  let h := hms.1
  let m := hms.2.1
  let s := hms.2.2
  let out := ("")
  let out := if dt.years ≠ 0 then
      out ++ padSpace 4 (toString dt.years) ++ (" year") ++
        (if dt.years > 1 then ("s ") else (" "))
    else out
  let out := if dt.months ≠ 0 then
      out ++ padSpace 2 (toString dt.months) ++ (" month") ++
        (if dt.months > 1 then ("s ") else (" "))
    else out
  let out := if dt.days ≠ 0 then
      out ++ padSpace 2 (toString dt.days) ++ (" day") ++
        (if dt.days > 1 then ("s ") else (" "))
    else out
  let out := if dt.seconds ≠ 0 then
      let out := out ++ toString dt.seconds ++ (" seconds ( ")
      let out := if h ≠ 0 then
          out ++ toString h ++ (" hour") ++ (if h > 1 then ("s ") else (" "))
        else out
      let out := if m ≠ 0 then
          out ++ toString m ++ (" minute") ++ (if m > 1 then ("s ") else (" "))
        else out
      let out := if s ≠ 0 then
          out ++ toString s ++ (" second") ++ (if s > 1 then ("s ") else (" "))
        else out
      out ++ (")")
    else out
  out

/-- crm_time_as_string: a null value formats as the empty string; a dated
value is first converted to UTC unless the timezone is requested; then
the date part (seconds, epoch, weeks, ordinal or Gregorian), the
time-of-day part, and the timezone suffix (Z when none requested or the
offset is zero) are concatenated, a single space between date and
time. -/
def crm_time_as_string (date_time : Option CrmTime) (flags : FormatFlags) : Option String :=
  match date_time with
  | none => some ("")
  | some date_time =>
    let dt := if date_time.offset ≠ 0 ∧ flags.log_with_timezone = false then
        crm_get_utc_time date_time
      else date_time
    if flags.log_duration then some (durationProse dt)
    else
      let date_s : Option String :=
        if flags.log_date then
          if flags.seconds then some (toString (crm_time_get_seconds date_time))
          else if flags.epoch then some (toString (crm_time_get_seconds_since_epoch date_time))
          else if flags.weeks then
            match crm_time_get_isoweek dt with
            | some (y, w, d) =>
              some (toString (u32 y) ++ ("-W") ++ padZero 2 (toString (u32 w)) ++
                ("-") ++ toString (u32 d))
            | none => some ("")
          else if flags.ordinal then
            let yd := crm_time_get_ordinal dt
            some (toString (u32 yd.1) ++ ("-") ++ padZero 3 (toString (u32 yd.2)))
          else
            let ymd := crm_time_get_gregorian dt
            some (padZero 4 (toString (u32 ymd.1)) ++ ("-") ++
              padZero 2 (toString (u32 ymd.2.1)) ++ ("-") ++
              padZero 2 (toString (u32 ymd.2.2)))
        else none
      let ts : Option String × Option String :=
        if flags.log_timeofday then
          let hms := crm_time_get_timeofday dt
          let time_s := padZero 2 (toString hms.1) ++ (":") ++
            padZero 2 (toString hms.2.1) ++ (":") ++ padZero 2 (toString hms.2.2)
          let hms := if dt.offset ≠ 0 then crm_time_get_sec dt.offset else hms
          let offset_s :=
            if flags.log_with_timezone = false ∨ dt.offset = 0 then ("Z")
            else (" ") ++ (if dt.offset < 0 then ("-") else ("+")) ++
              padZero 2 (toString hms.1) ++ (":") ++ padZero 2 (toString hms.2.1)
          (some time_s, some offset_s)
        else (none, none)
      some ((date_s.getD ("")) ++
        (if date_s.isSome ∧ ts.1.isSome then (" ") else ("")) ++
        (ts.1.getD ("")) ++ (ts.2.getD ("")))

/-- The Gregorian, time-of-day and timezone flag combination used by the
concrete formatting scenarios. -/
def flagsDateTimeZone : FormatFlags :=
  ⟨true, true, true, false, false, false, false, false⟩

-- Formatter sanity examples kept from development.

/-- Sum of year_days over years 1..n. -/
def sumYdUp : Nat → Int
  | 0 => 0
  | n + 1 => sumYdUp n + year_days ((n : Int) + 1)

/-- Sum of year_days over years 1-n..0. -/
def sumYdDown : Nat → Int
  | 0 => 0
  | n + 1 => sumYdDown n + year_days (-(n : Int))

/-- The absolute day-number base of a year: day d of year y is absolute
day yearBase y + d. -/
def yearBase (y : Int) : Int :=
  if 1 ≤ y then sumYdUp (y - 1).toNat else -(sumYdDown (1 - y).toNat)

/-- The absolute second count of a value. -/
def timelineVal (t : CrmTime) : Int :=
  86400 * (yearBase t.years + t.days) + t.seconds

/-!
Gregorian machinery.  The month computations depend on the year only
through its leap flag, so each is related to a boolean-parametric clone,
about which the finitely many (month, day) cases are decided once and
for all.
-/

/-- crm_time_days_in_month as a function of the leap flag. -/
def dimOfLeap (b : Bool) (m : Int) : Int :=
  month_days (if m = 2 ∧ b = true then 13 else m)

/-- year_days as a function of the leap flag. -/
def ydOfLeap (b : Bool) : Int :=
  if b = true then 366 else 365

/-- ordinalLoopF as a function of the leap flag. -/
def ordinalLoopLF (b : Bool) : Nat → Int → Int → Int → Int
  | 0, _, _, d => d
  | fuel + 1, lpc, m, d =>
    if lpc < m then ordinalLoopLF b fuel (lpc + 1) m (d + dimOfLeap b lpc)
    else d

/-- gregFindF as a function of the leap flag. -/
def gregFindLF (b : Bool) : Nat → Int → Int → Int × Int
  | 0, months, days => (months, days)
  | fuel + 1, months, days =>
    if months ≤ 12 ∧ days > 0 then
      let mdays := dimOfLeap b months
      if mdays ≥ days then (months, days)
      else gregFindLF b fuel (months + 1) (days - mdays)
    else (months, days)

/-- Modelled from the spec: compare years, then days, then seconds, as a
sign. -/
def specLexCompare (x y : Int × Int × Int) : Int :=
  if x.1 > y.1 then 1 else if x.1 < y.1 then -1
  else if x.2.1 > y.2.1 then 1 else if x.2.1 < y.2.1 then -1
  else if x.2.2 > y.2.2 then 1 else if x.2.2 < y.2.2 then -1 else 0

/-- The UTC-normalized (years, days, seconds) triple of a value. -/
def utcTriple (a : CrmTime) : Int × Int × Int :=
  ((crm_get_utc_time a).years, (crm_get_utc_time a).days, (crm_get_utc_time a).seconds)

/-- Modelled from the spec: the stated ISO week-date conversion — start
from January 1 of y, add (week-1)*7 days, add 1-jan1 days when
jan1(y) ≤ 4 else 8-jan1 days, then add the weekday — as one day
addition. -/
def specWeekConversion (y w d : Int) : CrmTime :=
  let jan1 := crm_time_january1_weekday y
  crm_time_add_days ⟨y, 0, 0, 0, 0, false⟩
    ((w - 1) * 7 + (if jan1 ≤ 4 then 1 - jan1 else 8 - jan1) + d)

/-- The spec's instant invariants: crm_time_check holds, the year is
positive, months is zero and the duration tag is clear. -/
def ValidInstant (v : CrmTime) : Prop :=
  crm_time_check v = true ∧ 1 ≤ v.years ∧ v.months = 0 ∧ v.duration = false

instance (v : CrmTime) : Decidable (ValidInstant v) := by
  unfold ValidInstant
  infer_instance

/-!
The seconds-from-origin value at the epoch.  The accumulating loop is
first related to a right-leaning sum, whose value over years 1..n has the
closed form 86400 * (365 n + n/4 - n/100 + n/400).
-/

/-- The sum the crm_time_get_seconds loop accumulates, as a plain sum
over the years lpc, lpc+1, ... -/
def ysSum (lpc : Int) : Nat → Int
  | 0 => 0
  | n + 1 => 60 * 60 * 24 * year_days lpc + ysSum (lpc + 1) n

example : crm_time_leapyear 2000 = true := by decide

example : crm_time_leapyear 1900 = false := by decide

example : crm_time_leapyear 2020 = true := by decide

example : crm_time_january1_weekday 2009 = 4 := by decide

example : crm_time_weeks_in_year 2009 = 53 := by decide

example : get_ordinal_days 2020 2 29 = 60 := by decide

example : crm_time_add_days ⟨2020, 0, 366, 0, 0, false⟩ 0 = ⟨2020, 0, 366, 0, 0, false⟩ := by decide

example : crm_time_check (crm_time_add_years ⟨2020, 0, 366, 0, 0, false⟩ 1) = false := by decide

example : crm_time_add_months ⟨2019, 0, 31, 0, 0, false⟩ 1 = ⟨2019, 0, 59, 0, 0, false⟩ := by decide

example : crm_time_add_months ⟨2020, 0, 31, 0, 0, false⟩ 1 = ⟨2020, 0, 60, 0, 0, false⟩ := by decide

example :
    crm_time_subtract (crm_time_add ⟨2020, 0, 366, 0, 0, false⟩ ⟨1, 0, 0, 0, 0, true⟩)
      ⟨1, 0, 0, 0, 0, true⟩ = ⟨2021, 0, 1, 0, 0, false⟩ := by decide

example : parse_date 0 someNow ( "epoch") = some ⟨1970, 0, 1, 0, 0, false⟩ := by decide

example : parse_date 0 someNow ( "1900-02-29") = some ⟨1900, 0, 60, 0, 0, false⟩ := by decide

example : parse_date 0 someNow ( "2000-02-29") = some ⟨2000, 0, 60, 0, 0, false⟩ := by decide

example : parse_date 0 someNow ( "2009-W53-7") = some ⟨2010, 0, 3, 0, 0, false⟩ := by decide

example : parse_date 0 someNow ( "2009-W01-1") = some ⟨2008, 0, 364, 0, 0, false⟩ := by decide

example : parse_date 0 someNow ( "2020-01-31T00:00:00Z") = some ⟨2020, 0, 31, 0, 0, false⟩ := by
  decide

example : parse_date 0 someNow ( "2020-02-29T12:00:00+02:00") = some ⟨2020, 0, 60, 43200, 0, false⟩ := by
  decide

example : parse_date 7200 someNow ( "2020-02-29T12:00:00+02:00") = some ⟨2020, 0, 60, 43200, 7200, false⟩ := by
  decide

example : parse_date 0 someNow ( "2020-02-29T10:00:00Z") = some ⟨2020, 0, 60, 36000, 0, false⟩ := by
  decide

example : crm_time_parse_duration ( "P1Y2M10DT2H30M") = some ⟨1, 2, 10, 9000, 0, false⟩ := by
  decide

example : parse_date 0 someNow ( "2000-13-01") = none := by decide

example : parse_date 0 someNow ( "2000-01-32") = none := by decide

example : parse_date 0 someNow ( "2005-020") = some ⟨2005, 0, 20, 0, 0, false⟩ := by decide

example : crm_time_as_string none flagsDateTimeZone = some ("") := by decide

example :
    crm_time_as_string (some ⟨1970, 0, 1, 0, 0, false⟩) flagsDateTimeZone =
      some ("1970-01-01 00:00:00Z") := by decide

example : crm_time_get_timeofday ⟨2021, 0, 100, 9000, 0, false⟩ = (2, 30, 0) := by decide

example : crm_time_get_gregorian ⟨2021, 0, 100, 9000, 0, false⟩ = (2021, 4, 10) := by decide

/-!
Proof machinery.  `yearBase y` numbers the days of the proleptic calendar
the arithmetic loops walk: it is the sum of year_days over the years
before y (negative for years before year 1), so that `yearBase y + d`
is an absolute day number for the ordinal date (y, d) and
`86400 * (yearBase y + d) + s` an absolute second count
(`timelineVal`).  The carry loops preserve these quantities, and a valid
(year, day, second) triple is uniquely determined by its timelineVal —
which is what the add/subtract and composition theorems below rest on.
-/

theorem year_days_cases (y : Int) : year_days y = 365 ∨ year_days y = 366 := by
  unfold year_days
  split
  · exact Or.inr rfl
  · exact Or.inl rfl

theorem yearBase_succ (y : Int) : yearBase (y + 1) = yearBase y + year_days y := by
  by_cases hy0 : y = 0
  · subst hy0; decide
  · unfold yearBase
    rcases le_or_lt 1 y with hy | hy
    · rw [if_pos (by omega), if_pos hy]
      have h1 : (y + 1 - 1).toNat = (y - 1).toNat + 1 := by omega
      rw [h1]
      simp only [sumYdUp]
      have h2 : ((y - 1).toNat : Int) + 1 = y := by omega
      rw [h2]
    · rw [if_neg (by omega), if_neg (by omega)]
      have h1 : (1 - y).toNat = (1 - (y + 1)).toNat + 1 := by omega
      rw [h1]
      simp only [sumYdDown]
      have h2 : -(((1 - (y + 1)).toNat : Int)) = y := by omega
      rw [h2]
      ring

theorem yearBase_strictMono : StrictMono yearBase :=
  strictMono_int_of_lt_succ fun y => by
    rw [yearBase_succ]
    rcases year_days_cases y with h | h <;> omega

/-- A valid ordinal date is uniquely determined by its absolute day
number. -/
theorem rep_unique {y1 d1 y2 d2 : Int} (h11 : 1 ≤ d1) (h12 : d1 ≤ year_days y1)
    (h21 : 1 ≤ d2) (h22 : d2 ≤ year_days y2)
    (he : yearBase y1 + d1 = yearBase y2 + d2) : y1 = y2 ∧ d1 = d2 := by
  rcases lt_trichotomy y1 y2 with h | h | h
  · have hm : yearBase (y1 + 1) ≤ yearBase y2 := yearBase_strictMono.monotone (by omega)
    rw [yearBase_succ] at hm
    omega
  · subst h
    exact ⟨rfl, by omega⟩
  · have hm : yearBase (y2 + 1) ≤ yearBase y1 := yearBase_strictMono.monotone (by omega)
    rw [yearBase_succ] at hm
    omega

theorem carryForwardF_base : ∀ (fuel : Nat) (y d : Int),
    yearBase (carryForwardF fuel y d).1 + (carryForwardF fuel y d).2 = yearBase y + d := by
  intro fuel
  induction fuel with
  | zero => intro y d; rfl
  | succ n ih =>
    intro y d
    simp only [carryForwardF]
    split
    · rw [ih, yearBase_succ]
      ring
    · rfl

theorem carryForwardF_le : ∀ (fuel : Nat) (y d : Int), d ≤ 365 * fuel + 365 →
    (carryForwardF fuel y d).2 ≤ year_days (carryForwardF fuel y d).1 := by
  intro fuel
  induction fuel with
  | zero =>
    intro y d h
    show d ≤ year_days y
    rcases year_days_cases y with h2 | h2 <;> omega
  | succ n ih =>
    intro y d h
    simp only [carryForwardF]
    split
    · apply ih
      rcases year_days_cases y with h2 | h2 <;> omega
    · rename_i hc
      show d ≤ year_days y
      omega

theorem carryForwardF_ge : ∀ (fuel : Nat) (y d : Int), 1 ≤ d →
    1 ≤ (carryForwardF fuel y d).2 := by
  intro fuel
  induction fuel with
  | zero => intro y d h; exact h
  | succ n ih =>
    intro y d h
    simp only [carryForwardF]
    split
    · rename_i hc
      rcases year_days_cases y with h2 | h2 <;> (apply ih; omega)
    · exact h

theorem carryBackF_base : ∀ (fuel : Nat) (lb y d : Int),
    yearBase (carryBackF lb fuel y d).1 + (carryBackF lb fuel y d).2 = yearBase y + d := by
  intro fuel
  induction fuel with
  | zero => intro lb y d; rfl
  | succ n ih =>
    intro lb y d
    simp only [carryBackF]
    split
    · rw [ih]
      have h2 := yearBase_succ (y - 1)
      have h3 : y - 1 + 1 = y := by ring
      rw [h3] at h2
      omega
    · rfl

theorem carryBackF_ge : ∀ (fuel : Nat) (lb y d : Int), lb - d ≤ 365 * fuel →
    lb ≤ (carryBackF lb fuel y d).2 := by
  intro fuel
  induction fuel with
  | zero =>
    intro lb y d h
    simp only [carryBackF]
    omega
  | succ n ih =>
    intro lb y d h
    simp only [carryBackF]
    split
    · rename_i hc
      apply ih
      rcases year_days_cases (y - 1) with h2 | h2 <;> omega
    · rename_i hc
      omega

theorem carryBackF_le : ∀ (fuel : Nat) (lb y d : Int), lb ≤ 1 → d ≤ year_days y →
    (carryBackF lb fuel y d).2 ≤ year_days (carryBackF lb fuel y d).1 := by
  intro fuel
  induction fuel with
  | zero => intro lb y d hlb h; exact h
  | succ n ih =>
    intro lb y d hlb h
    simp only [carryBackF]
    split
    · rename_i hc
      apply ih lb (y - 1) _ hlb
      rcases year_days_cases (y - 1) with h2 | h2 <;> omega
    · exact h

/-- What crm_time_add_days does for a non-duration value: it shifts the
absolute day number by extra and renormalizes the year/day pair, leaving
the other fields alone. -/
theorem crm_time_add_days_spec (a : CrmTime) (e : Int) (h : a.duration = false) :
    timelineVal (crm_time_add_days a e) = timelineVal a + 86400 * e ∧
    1 ≤ (crm_time_add_days a e).days ∧
    (crm_time_add_days a e).days ≤ year_days (crm_time_add_days a e).years ∧
    (crm_time_add_days a e).seconds = a.seconds ∧
    (crm_time_add_days a e).months = a.months ∧
    (crm_time_add_days a e).offset = a.offset ∧
    (crm_time_add_days a e).duration = a.duration := by
  have hcf1 := carryForwardF_base (a.days + e).toNat a.years (a.days + e)
  have hcf2 := carryForwardF_le (a.days + e).toNat a.years (a.days + e) (by omega)
  set cf := carryForwardF (a.days + e).toNat a.years (a.days + e) with hcf
  have hcb1 := carryBackF_base (1 - cf.2).toNat 1 cf.1 cf.2
  have hcb2 := carryBackF_ge (1 - cf.2).toNat 1 cf.1 cf.2 (by omega)
  have hcb3 := carryBackF_le (1 - cf.2).toNat 1 cf.1 cf.2 (by omega) hcf2
  unfold crm_time_add_days timelineVal
  simp only [h, Bool.false_eq_true, if_false, ← hcf]
  refine ⟨by omega, hcb2, hcb3, ?_, ?_, ?_, ?_⟩ <;> trivial

theorem secNormUpF_base : ∀ (fuel : Nat) (s dd : Int),
    (secNormUpF fuel s dd).1 + 86400 * (secNormUpF fuel s dd).2 = s + 86400 * dd := by
  intro fuel
  induction fuel with
  | zero => intro s dd; rfl
  | succ n ih =>
    intro s dd
    simp only [secNormUpF]
    split
    · rw [ih]
      ring
    · rfl

theorem secNormUpF_lt : ∀ (fuel : Nat) (s dd : Int), s ≤ 86400 * fuel + 86399 →
    (secNormUpF fuel s dd).1 < 86400 := by
  intro fuel
  induction fuel with
  | zero =>
    intro s dd h
    show s < 86400
    omega
  | succ n ih =>
    intro s dd h
    simp only [secNormUpF]
    split
    · apply ih
      omega
    · rename_i hc
      show s < 86400
      omega

theorem secNormUpF_cases : ∀ (fuel : Nat) (s dd : Int),
    (secNormUpF fuel s dd).1 = s ∨ 0 ≤ (secNormUpF fuel s dd).1 := by
  intro fuel
  induction fuel with
  | zero => intro s dd; exact Or.inl rfl
  | succ n ih =>
    intro s dd
    simp only [secNormUpF]
    split
    · rename_i hc
      rcases ih (s - 24 * 60 * 60) (dd + 1) with h | h
      · right
        omega
      · right
        exact h
    · exact Or.inl rfl

theorem secNormDownF_base : ∀ (fuel : Nat) (s dd : Int),
    (secNormDownF fuel s dd).1 + 86400 * (secNormDownF fuel s dd).2 = s + 86400 * dd := by
  intro fuel
  induction fuel with
  | zero => intro s dd; rfl
  | succ n ih =>
    intro s dd
    simp only [secNormDownF]
    split
    · rw [ih]
      ring
    · rfl

theorem secNormDownF_ge : ∀ (fuel : Nat) (s dd : Int), -s ≤ 86400 * fuel →
    0 ≤ (secNormDownF fuel s dd).1 := by
  intro fuel
  induction fuel with
  | zero =>
    intro s dd h
    show (0 : Int) ≤ s
    omega
  | succ n ih =>
    intro s dd h
    simp only [secNormDownF]
    split
    · apply ih
      omega
    · rename_i hc
      show (0 : Int) ≤ s
      omega

theorem secNormDownF_lt : ∀ (fuel : Nat) (s dd : Int), s < 86400 →
    (secNormDownF fuel s dd).1 < 86400 := by
  intro fuel
  induction fuel with
  | zero => intro s dd h; exact h
  | succ n ih =>
    intro s dd h
    simp only [secNormDownF]
    split
    · apply ih
      rename_i hc
      omega
    · exact h

/-- What crm_time_add_seconds does for a non-duration value: it shifts
the absolute second count by extra and renormalizes all three calendar
fields, leaving the rest alone. -/
theorem crm_time_add_seconds_spec (a : CrmTime) (e : Int) (h : a.duration = false) :
    timelineVal (crm_time_add_seconds a e) = timelineVal a + e ∧
    1 ≤ (crm_time_add_seconds a e).days ∧
    (crm_time_add_seconds a e).days ≤ year_days (crm_time_add_seconds a e).years ∧
    0 ≤ (crm_time_add_seconds a e).seconds ∧
    (crm_time_add_seconds a e).seconds < 86400 ∧
    (crm_time_add_seconds a e).months = a.months ∧
    (crm_time_add_seconds a e).offset = a.offset ∧
    (crm_time_add_seconds a e).duration = a.duration := by
  have hu1 := secNormUpF_base (a.seconds + e).toNat (a.seconds + e) 0
  have hu2 := secNormUpF_lt (a.seconds + e).toNat (a.seconds + e) 0 (by omega)
  have hu3 := secNormUpF_cases (a.seconds + e).toNat (a.seconds + e) 0
  set su := secNormUpF (a.seconds + e).toNat (a.seconds + e) 0 with hsu
  have hd1 := secNormDownF_base (-su.1).toNat su.1 su.2
  have hd2 := secNormDownF_ge (-su.1).toNat su.1 su.2 (by omega)
  have hd3 := secNormDownF_lt (-su.1).toNat su.1 su.2 hu2
  set sd := secNormDownF (-su.1).toNat su.1 su.2 with hsd
  have heq : crm_time_add_seconds a e = crm_time_add_days { a with seconds := sd.1 } sd.2 := by
    simp only [crm_time_add_seconds, ← hsu, ← hsd]
  rw [heq]
  obtain ⟨ht, hge, hle, hsec, hmon, hoff, hdur⟩ :=
    crm_time_add_days_spec { a with seconds := sd.1 } sd.2 h
  dsimp only at ht hsec hmon hoff hdur
  refine ⟨?_, hge, hle, ?_, ?_, hmon, hoff, hdur⟩
  · rw [ht]
    unfold timelineVal
    dsimp only
    omega
  · omega
  · omega

/-- Two values with in-range days and seconds and the same absolute
second count agree on years, days and seconds. -/
theorem timeline_unique (t1 t2 : CrmTime)
    (h1a : 1 ≤ t1.days) (h1b : t1.days ≤ year_days t1.years)
    (h1c : 0 ≤ t1.seconds) (h1d : t1.seconds < 86400)
    (h2a : 1 ≤ t2.days) (h2b : t2.days ≤ year_days t2.years)
    (h2c : 0 ≤ t2.seconds) (h2d : t2.seconds < 86400)
    (ht : timelineVal t1 = timelineVal t2) :
    t1.years = t2.years ∧ t1.days = t2.days ∧ t1.seconds = t2.seconds := by
  unfold timelineVal at ht
  have hs : t1.seconds = t2.seconds ∧
      yearBase t1.years + t1.days = yearBase t2.years + t2.days := by
    constructor <;> omega
  obtain ⟨hs1, hs2⟩ := hs
  obtain ⟨hy, hd⟩ := rep_unique h1a h1b h2a h2b hs2
  exact ⟨hy, hd, hs1⟩

theorem CrmTime.eq_of_fields {a b : CrmTime} (h1 : a.years = b.years)
    (h2 : a.months = b.months) (h3 : a.days = b.days) (h4 : a.seconds = b.seconds)
    (h5 : a.offset = b.offset) (h6 : a.duration = b.duration) : a = b := by
  cases a
  cases b
  simp_all

theorem crm_time_check_iff (t : CrmTime) :
    crm_time_check t = true ↔
      (1 ≤ t.days ∧ t.days ≤ year_days t.years ∧ 0 ≤ t.seconds ∧ t.seconds < 86400) := by
  unfold crm_time_check
  simp only [decide_eq_true_eq]
  omega

/-- Consecutive day additions on a non-duration value collapse to one. -/
theorem crm_time_add_days_add_days (t : CrmTime) (a b : Int) (h : t.duration = false) :
    crm_time_add_days (crm_time_add_days t a) b = crm_time_add_days t (a + b) := by
  obtain ⟨t1, g1, l1, s1, m1, o1, u1⟩ := crm_time_add_days_spec t a h
  obtain ⟨t2, g2, l2, s2, m2, o2, u2⟩ :=
    crm_time_add_days_spec (crm_time_add_days t a) b (by rw [u1, h])
  obtain ⟨t3, g3, l3, s3, m3, o3, u3⟩ := crm_time_add_days_spec t (a + b) h
  have hB : yearBase (crm_time_add_days (crm_time_add_days t a) b).years +
        (crm_time_add_days (crm_time_add_days t a) b).days =
      yearBase (crm_time_add_days t (a + b)).years +
        (crm_time_add_days t (a + b)).days := by
    unfold timelineVal at t1 t2 t3
    omega
  obtain ⟨hy, hd⟩ := rep_unique g2 l2 g3 l3 hB
  exact CrmTime.eq_of_fields hy (by rw [m2, m1, m3]) hd (by rw [s2, s1, s3])
    (by rw [o2, o1, o3]) (by rw [u2, u1, u3])

theorem dim_eq (m y : Int) :
    crm_time_days_in_month m y = dimOfLeap (crm_time_leapyear y) m := by
  unfold crm_time_days_in_month dimOfLeap
  split <;> rfl

theorem yd_eq (y : Int) : year_days y = ydOfLeap (crm_time_leapyear y) := by
  unfold year_days ydOfLeap
  split <;> simp_all

theorem ordinalLoopF_eq : ∀ (fuel : Nat) (y lpc m d : Int),
    ordinalLoopF y fuel lpc m d = ordinalLoopLF (crm_time_leapyear y) fuel lpc m d := by
  intro fuel
  induction fuel with
  | zero => intro y lpc m d; rfl
  | succ n ih =>
    intro y lpc m d
    simp only [ordinalLoopF, ordinalLoopLF, dim_eq]
    split
    · exact ih y (lpc + 1) m (d + dimOfLeap (crm_time_leapyear y) lpc)
    · rfl

theorem gregFindF_eq : ∀ (fuel : Nat) (y months days : Int),
    gregFindF y fuel months days = gregFindLF (crm_time_leapyear y) fuel months days := by
  intro fuel
  induction fuel with
  | zero => intro y months days; rfl
  | succ n ih =>
    intro y months days
    simp only [gregFindF, gregFindLF, dim_eq]
    split
    · split
      · rfl
      · exact ih y (months + 1) (days - dimOfLeap (crm_time_leapyear y) months)
    · rfl

theorem greg_round_nat : ∀ b : Bool, ∀ n : Nat, n < 367 →
    1 ≤ (n : Int) → (n : Int) ≤ ydOfLeap b →
    1 ≤ (gregFindLF b 12 1 (n : Int)).1 ∧ (gregFindLF b 12 1 (n : Int)).1 ≤ 12 ∧
    1 ≤ (gregFindLF b 12 1 (n : Int)).2 ∧
    (gregFindLF b 12 1 (n : Int)).2 ≤ dimOfLeap b (gregFindLF b 12 1 (n : Int)).1 ∧
    ordinalLoopLF b ((gregFindLF b 12 1 (n : Int)).1 - 1).toNat 1
      (gregFindLF b 12 1 (n : Int)).1 (gregFindLF b 12 1 (n : Int)).2 = (n : Int) := by
  decide

/-- The Gregorian decomposition of a valid ordinal day is a valid
(month, day-of-month) pair and get_ordinal_days inverts it. -/
theorem greg_roundtrip (y d : Int) (h1 : 1 ≤ d) (h2 : d ≤ year_days y) :
    1 ≤ (gregFind y d).1 ∧ (gregFind y d).1 ≤ 12 ∧ 1 ≤ (gregFind y d).2 ∧
    (gregFind y d).2 ≤ crm_time_days_in_month (gregFind y d).1 y ∧
    get_ordinal_days y (gregFind y d).1 (gregFind y d).2 = d := by
  have hdc : ((d.toNat : Nat) : Int) = d := by omega
  have hlt : d.toNat < 367 := by
    rcases year_days_cases y with h3 | h3 <;> omega
  have hyd : (d.toNat : Int) ≤ ydOfLeap (crm_time_leapyear y) := by
    rw [hdc, ← yd_eq]
    exact h2
  have hmain := greg_round_nat (crm_time_leapyear y) d.toNat hlt (by omega) hyd
  rw [hdc] at hmain
  unfold gregFind get_ordinal_days
  rw [gregFindF_eq, ordinalLoopF_eq, dim_eq]
  exact hmain

theorem ord_bounds_nat_ge : ∀ b : Bool, ∀ m : Nat, m < 13 → ∀ d : Nat, d < 32 →
    1 ≤ (m : Int) → 1 ≤ (d : Int) → (d : Int) ≤ dimOfLeap b (m : Int) →
    1 ≤ ordinalLoopLF b ((m : Int) - 1).toNat 1 (m : Int) (d : Int) := by
  decide

theorem ord_bounds_nat_le : ∀ b : Bool, ∀ m : Nat, m < 13 → ∀ d : Nat, d < 32 →
    1 ≤ (m : Int) → 1 ≤ (d : Int) → (d : Int) ≤ dimOfLeap b (m : Int) →
    ordinalLoopLF b ((m : Int) - 1).toNat 1 (m : Int) (d : Int) ≤ ydOfLeap b := by
  decide

theorem dim_bounds_nat : ∀ b : Bool, ∀ m : Nat, m < 13 →
    1 ≤ (m : Int) → 1 ≤ dimOfLeap b (m : Int) ∧ dimOfLeap b (m : Int) ≤ 31 := by
  decide

/-- days_in_month is between 1 and 31 for months 1..12. -/
theorem dim_bounds (m y : Int) (h1 : 1 ≤ m) (h2 : m ≤ 12) :
    1 ≤ crm_time_days_in_month m y ∧ crm_time_days_in_month m y ≤ 31 := by
  have hmc : ((m.toNat : Nat) : Int) = m := by omega
  have := dim_bounds_nat (crm_time_leapyear y) m.toNat (by omega) (by omega)
  rw [hmc] at this
  rw [dim_eq]
  exact this

/-- get_ordinal_days of a valid (month, day-of-month) pair is a valid
ordinal day. -/
theorem ord_bounds (y m d : Int) (h1 : 1 ≤ m) (h2 : m ≤ 12) (h3 : 1 ≤ d)
    (h4 : d ≤ crm_time_days_in_month m y) :
    1 ≤ get_ordinal_days y m d ∧ get_ordinal_days y m d ≤ year_days y := by
  have hmc : ((m.toNat : Nat) : Int) = m := by omega
  have hdc : ((d.toNat : Nat) : Int) = d := by omega
  have hdim : (d.toNat : Int) ≤ dimOfLeap (crm_time_leapyear y) (m.toNat : Int) := by
    rw [hmc, hdc, ← dim_eq]
    exact h4
  have h31 : d ≤ 31 := by
    have := dim_bounds m y h1 h2
    omega
  have hge := ord_bounds_nat_ge (crm_time_leapyear y) m.toNat (by omega) d.toNat (by omega)
    (by omega) (by omega) hdim
  have hle := ord_bounds_nat_le (crm_time_leapyear y) m.toNat (by omega) d.toNat (by omega)
    (by omega) (by omega) hdim
  rw [hmc, hdc] at hge hle
  unfold get_ordinal_days
  rw [ordinalLoopF_eq, yd_eq]
  exact ⟨hge, hle⟩

theorem stepMonthsUp_range : ∀ (n : Nat) (y m : Int), 1 ≤ m → m ≤ 12 →
    1 ≤ (stepMonthsUp y m n).2 ∧ (stepMonthsUp y m n).2 ≤ 12 := by
  intro n
  induction n with
  | zero => intro y m h1 h2; exact ⟨h1, h2⟩
  | succ k ih =>
    intro y m h1 h2
    simp only [stepMonthsUp]
    split
    · exact ih (y + 1) 1 (by omega) (by omega)
    · rename_i hc
      exact ih y (m + 1) (by omega) (by omega)

theorem stepMonthsDown_range : ∀ (n : Nat) (y m : Int), 1 ≤ m → m ≤ 12 →
    1 ≤ (stepMonthsDown y m n).2 ∧ (stepMonthsDown y m n).2 ≤ 12 := by
  intro n
  induction n with
  | zero => intro y m h1 h2; exact ⟨h1, h2⟩
  | succ k ih =>
    intro y m h1 h2
    simp only [stepMonthsDown]
    split
    · exact ih (y - 1) 12 (by omega) (by omega)
    · rename_i hc
      exact ih y (m - 1) (by omega) (by omega)

/-- crm_time_add_months keeps a value with valid days and a positive year
valid: month stepping stays within 1..12, the day clamp keeps the day of
month in range, and the re-derived ordinal day is in range; seconds are
untouched. -/
theorem crm_time_add_months_check (v : CrmTime) (n : Int)
    (hy : 1 ≤ v.years) (hd1 : 1 ≤ v.days) (hd2 : v.days ≤ year_days v.years)
    (hs1 : 0 ≤ v.seconds) (hs2 : v.seconds < 86400) :
    crm_time_check (crm_time_add_months v n) = true := by
  obtain ⟨hm1, hm2, hg1, hg2, hround⟩ := greg_roundtrip v.years v.days hd1 hd2
  have hy0 : v.years ≠ 0 := by omega
  have hgreg : crm_time_get_gregorian v =
      (v.years, (gregFind v.years v.days).1, (gregFind v.years v.days).2) := by
    unfold crm_time_get_gregorian
    rw [if_pos hy0]
  rw [crm_time_check_iff]
  unfold crm_time_add_months
  rw [hgreg]
  dsimp only
  set md := gregFind v.years v.days with hmd
  set ym := if n > 0 then stepMonthsUp v.years md.1 n.toNat
            else stepMonthsDown v.years md.1 (-n).toNat with hym
  have hymr : 1 ≤ ym.2 ∧ ym.2 ≤ 12 := by
    rw [hym]
    split
    · exact stepMonthsUp_range n.toNat v.years md.1 hm1 hm2
    · exact stepMonthsDown_range (-n).toNat v.years md.1 hm1 hm2
  have hdimp := dim_bounds ym.2 ym.1 hymr.1 hymr.2
  set dcl := if crm_time_days_in_month ym.2 ym.1 < md.2 then crm_time_days_in_month ym.2 ym.1
             else md.2 with hdcl
  have hdclr : 1 ≤ dcl ∧ dcl ≤ crm_time_days_in_month ym.2 ym.1 := by
    rw [hdcl]
    split <;> omega
  have hob := ord_bounds ym.1 ym.2 dcl hymr.1 hymr.2 hdclr.1 hdclr.2
  exact ⟨hob.1, hob.2, hs1, hs2⟩

/-- Adding zero months to a valid dated value is the identity: no
stepping, no clamping, and the ordinal day is rebuilt unchanged. -/
theorem crm_time_add_months_zero (v : CrmTime) (hy : 1 ≤ v.years) (hd1 : 1 ≤ v.days)
    (hd2 : v.days ≤ year_days v.years) : crm_time_add_months v 0 = v := by
  obtain ⟨hm1, hm2, hg1, hg2, hround⟩ := greg_roundtrip v.years v.days hd1 hd2
  have hy0 : v.years ≠ 0 := by omega
  have hgreg : crm_time_get_gregorian v =
      (v.years, (gregFind v.years v.days).1, (gregFind v.years v.days).2) := by
    unfold crm_time_get_gregorian
    rw [if_pos hy0]
  unfold crm_time_add_months
  rw [hgreg]
  dsimp only
  rw [if_neg (by norm_num : ¬((0 : Int) > 0))]
  have hstep : stepMonthsDown v.years (gregFind v.years v.days).1 (-(0 : Int)).toNat =
      (v.years, (gregFind v.years v.days).1) := rfl
  rw [hstep]
  dsimp only
  rw [if_neg (by omega)]
  rw [hround]

theorem do_cmp_nonzero (rc l r : Int) (h : ¬rc = 0) : do_cmp_field rc l r = rc := by
  unfold do_cmp_field
  rw [if_neg h]

theorem do_cmp_lt (rc l r : Int) (h0 : rc = 0) (h : l < r) : do_cmp_field rc l r = -1 := by
  unfold do_cmp_field
  rw [if_pos h0, if_neg (by omega), if_pos h]

theorem do_cmp_gt (rc l r : Int) (h0 : rc = 0) (h : r < l) : do_cmp_field rc l r = 1 := by
  unfold do_cmp_field
  rw [if_pos h0, if_pos (by omega)]

theorem do_cmp_refl (rc l : Int) (h0 : rc = 0) : do_cmp_field rc l l = 0 := by
  unfold do_cmp_field
  rw [if_pos h0, if_neg (by omega), if_neg (by omega)]

theorem cmp_chain (y1 d1 s1 y2 d2 s2 : Int) :
    do_cmp_field (do_cmp_field (do_cmp_field 0 y1 y2) d1 d2) s1 s2 =
      specLexCompare (y1, d1, s1) (y2, d2, s2) := by
  unfold specLexCompare
  dsimp only
  rcases lt_trichotomy y1 y2 with h1 | h1 | h1
  · rw [do_cmp_lt 0 y1 y2 rfl h1, do_cmp_nonzero (-1) d1 d2 (by norm_num),
      do_cmp_nonzero (-1) s1 s2 (by norm_num), if_neg (by omega), if_pos h1]
  · subst h1
    rw [do_cmp_refl 0 y1 rfl, if_neg (by omega), if_neg (by omega)]
    rcases lt_trichotomy d1 d2 with h2 | h2 | h2
    · rw [do_cmp_lt 0 d1 d2 rfl h2, do_cmp_nonzero (-1) s1 s2 (by norm_num),
        if_neg (by omega), if_pos h2]
    · subst h2
      rw [do_cmp_refl 0 d1 rfl, if_neg (by omega), if_neg (by omega)]
      rcases lt_trichotomy s1 s2 with h3 | h3 | h3
      · rw [do_cmp_lt 0 s1 s2 rfl h3, if_neg (by omega), if_pos h3]
      · subst h3
        rw [do_cmp_refl 0 s1 rfl, if_neg (by omega), if_neg (by omega)]
      · rw [do_cmp_gt 0 s1 s2 rfl h3, if_pos (by omega)]
    · rw [do_cmp_gt 0 d1 d2 rfl h2, do_cmp_nonzero 1 s1 s2 (by norm_num),
        if_pos (by omega)]
  · rw [do_cmp_gt 0 y1 y2 rfl h1, do_cmp_nonzero 1 d1 d2 (by norm_num),
      do_cmp_nonzero 1 s1 s2 (by norm_num), if_pos (by omega)]

/-- crm_time_compare of two non-null values is the lexicographic sign of
their UTC triples. -/
theorem compare_eq_lex (a b : CrmTime) :
    crm_time_compare (some a) (some b) = specLexCompare (utcTriple a) (utcTriple b) := by
  unfold crm_time_compare utcTriple
  dsimp only
  exact cmp_chain _ _ _ _ _ _

/-- The three crm_time_add_days calls of the week branch collapse to the
single day addition the spec states. -/
theorem parseWeekBranch_eq_spec (y w d : Int) :
    parseWeekBranch y w d = specWeekConversion y w d := by
  unfold parseWeekBranch specWeekConversion
  dsimp only
  split_ifs with h
  · rw [crm_time_add_days_add_days _ _ _ rfl]
    rw [crm_time_add_days_add_days _ _ _ rfl]
    congr 1
    ring
  · rw [crm_time_add_days_add_days _ _ _ rfl]
    rw [crm_time_add_days_add_days _ _ _ rfl]
    congr 1
    ring

theorem yearSecondsLoop_eq : ∀ (n : Nat) (acc lpc : Int),
    yearSecondsLoop acc lpc n = acc + ysSum lpc n := by
  intro n
  induction n with
  | zero =>
    intro acc lpc
    show acc = acc + 0
    omega
  | succ k ih =>
    intro acc lpc
    show yearSecondsLoop (acc + 60 * 60 * 24 * year_days lpc) (lpc + 1) k =
      acc + (60 * 60 * 24 * year_days lpc + ysSum (lpc + 1) k)
    rw [ih]
    ring

theorem ysSum_snoc : ∀ (n : Nat) (lpc : Int),
    ysSum lpc (n + 1) = ysSum lpc n + 60 * 60 * 24 * year_days (lpc + n) := by
  intro n
  induction n with
  | zero =>
    intro lpc
    show 60 * 60 * 24 * year_days lpc + 0 = 0 + 60 * 60 * 24 * year_days (lpc + (0 : Nat))
    norm_num
  | succ k ih =>
    intro lpc
    show 60 * 60 * 24 * year_days lpc + ysSum (lpc + 1) (k + 1) = _
    rw [ih (lpc + 1)]
    show _ = (60 * 60 * 24 * year_days lpc + ysSum (lpc + 1) k) +
      60 * 60 * 24 * year_days (lpc + ((k : Nat) + 1 : Nat))
    have harg : lpc + 1 + (k : Int) = lpc + (((k : Nat) + 1 : Nat) : Int) := by
      push_cast
      ring
    rw [harg]
    ring

theorem crm_time_leapyear_iff (y : Int) (hy : 0 ≤ y) :
    crm_time_leapyear y = true ↔ (y % 4 = 0 ∧ ¬(y % 100 = 0 ∧ ¬(y % 400 = 0))) := by
  unfold crm_time_leapyear
  rw [Int.tmod_eq_emod hy (by norm_num), Int.tmod_eq_emod hy (by norm_num),
    Int.tmod_eq_emod hy (by norm_num)]
  dsimp only
  split_ifs with h
  · simp only [Bool.false_eq_true, false_iff]
    tauto
  · simp only [decide_eq_true_eq]
    tauto

theorem year_days_emod (y : Int) (hy : 0 ≤ y) :
    year_days y = if y % 4 = 0 ∧ ¬(y % 100 = 0 ∧ ¬(y % 400 = 0)) then 366 else 365 := by
  unfold year_days
  by_cases hb : crm_time_leapyear y = true
  · rw [if_pos hb, if_pos ((crm_time_leapyear_iff y hy).mp hb)]
  · rw [if_neg hb, if_neg (fun hc => hb ((crm_time_leapyear_iff y hy).mpr hc))]

theorem ysSum_one_closed : ∀ n : Nat,
    ysSum 1 n = 86400 * (365 * (n : Int) + (n : Int) / 4 - (n : Int) / 100 + (n : Int) / 400) := by
  intro n
  induction n with
  | zero => norm_num [ysSum]
  | succ k ih =>
    rw [ysSum_snoc k 1, ih]
    rw [year_days_emod (1 + (k : Int)) (by positivity)]
    split_ifs with hc <;> push_cast <;> omega

theorem epoch_seconds_value : crm_time_get_seconds ⟨1970, 0, 1, 0, 0, false⟩ = 62135596800 := by
  have hutc : crm_get_utc_time ⟨1970, 0, 1, 0, 0, false⟩ = ⟨1970, 0, 1, 0, 0, false⟩ := by
    decide
  simp only [crm_time_get_seconds, hutc]
  rw [if_neg (by norm_num : ¬((0 : Int) > 0)), if_pos (by norm_num : (1 : Int) > 0)]
  rw [show ((1970 : Int) - 1).toNat = 1969 from rfl]
  rw [yearSecondsLoop_eq 1969 0 1, ysSum_one_closed 1969]
  norm_num

/-!
The claims.
-/

/-- C1 (counterexample): December 31 of the leap year 2020 is a valid
instant, but crm_time_add_years leaves its day-of-year field at 366,
which crm_time_check rejects in 2021. -/
theorem crm_c1_counterexample :
    ValidInstant ⟨2020, 0, 366, 0, 0, false⟩ ∧
    crm_time_check (crm_time_add_years ⟨2020, 0, 366, 0, 0, false⟩ 1) = false := by
  decide

/-- C1 (amended): crm_time_add_seconds, crm_time_add_days and
crm_time_add_months keep every valid instant valid for every integer n;
crm_time_add_years only adds to the years field, so its result is valid
exactly when the day-of-year also fits the target year. -/
theorem crm_c1_amended (v : CrmTime) (n : Int) (h : ValidInstant v) :
    crm_time_check (crm_time_add_seconds v n) = true ∧
    crm_time_check (crm_time_add_days v n) = true ∧
    crm_time_check (crm_time_add_months v n) = true ∧
    (crm_time_check (crm_time_add_years v n) = true ↔ v.days ≤ year_days (v.years + n)) := by
  obtain ⟨hc, hy, hm, hd⟩ := h
  rw [crm_time_check_iff] at hc
  obtain ⟨hc1, hc2, hc3, hc4⟩ := hc
  refine ⟨?_, ?_, crm_time_add_months_check v n hy hc1 hc2 hc3 hc4, ?_⟩
  · obtain ⟨_, g, l, s1, s2, _, _, _⟩ := crm_time_add_seconds_spec v n hd
    rw [crm_time_check_iff]
    exact ⟨g, l, s1, s2⟩
  · obtain ⟨_, g, l, hsec, _, _, _⟩ := crm_time_add_days_spec v n hd
    rw [crm_time_check_iff]
    refine ⟨g, l, ?_, ?_⟩ <;> rw [hsec] <;> omega
  · unfold crm_time_add_years
    rw [crm_time_check_iff]
    dsimp only
    constructor
    · rintro ⟨_, h2, _, _⟩
      exact h2
    · intro h2
      exact ⟨hc1, h2, hc3, hc4⟩

/-- C1 (witness): the amended statement at March 1, 2020, 01:00, n = 5. -/
theorem crm_c1_witness :
    ValidInstant ⟨2020, 0, 61, 3600, 0, false⟩ ∧
    (crm_time_check (crm_time_add_seconds ⟨2020, 0, 61, 3600, 0, false⟩ 5) = true ∧
     crm_time_check (crm_time_add_days ⟨2020, 0, 61, 3600, 0, false⟩ 5) = true ∧
     crm_time_check (crm_time_add_months ⟨2020, 0, 61, 3600, 0, false⟩ 5) = true ∧
     (crm_time_check (crm_time_add_years ⟨2020, 0, 61, 3600, 0, false⟩ 5) = true ↔
       (⟨2020, 0, 61, 3600, 0, false⟩ : CrmTime).days ≤
         year_days ((⟨2020, 0, 61, 3600, 0, false⟩ : CrmTime).years + 5))) :=
  ⟨by decide, crm_c1_amended ⟨2020, 0, 61, 3600, 0, false⟩ 5 (by decide)⟩

/-- C2 (counterexample): parsing "1900-02-29" does not fail — the parser
only checks month ≤ 12 and day ≤ 31, so it returns the instant with
ordinal day 60 of 1900. -/
theorem crm_c2_counterexample :
    parse_date 0 someNow ( "1900-02-29") = some ⟨1900, 0, 60, 0, 0, false⟩ := by
  decide

/-- C2 (amended): parse_date accepts a Gregorian date whenever
month ≤ 12 and day ≤ 31; the day of month is not checked against the
month length, so Feb 29 parses in every year — in non-leap years it
denotes ordinal day 60, i.e. March 1.  Month 13 or day 32 still fail. -/
theorem crm_c2_amended :
    parse_date 0 someNow ( "2000-02-29") = some ⟨2000, 0, 60, 0, 0, false⟩ ∧
    parse_date 0 someNow ( "2400-02-29") = some ⟨2400, 0, 60, 0, 0, false⟩ ∧
    parse_date 0 someNow ( "1900-02-29") = some ⟨1900, 0, 60, 0, 0, false⟩ ∧
    crm_time_get_gregorian ⟨1900, 0, 60, 0, 0, false⟩ = (1900, 3, 1) ∧
    parse_date 0 someNow ( "2100-02-29") = some ⟨2100, 0, 60, 0, 0, false⟩ ∧
    crm_time_get_gregorian ⟨2100, 0, 60, 0, 0, false⟩ = (2100, 3, 1) ∧
    crm_time_get_gregorian ⟨2000, 0, 60, 0, 0, false⟩ = (2000, 2, 29) ∧
    parse_date 0 someNow ( "2000-13-01") = none ∧
    parse_date 0 someNow ( "2000-01-32") = none := by
  decide

/-- C3 (counterexample): for the valid instant December 31, 2020 and the
months-free duration P1Y, subtract(add(v, d), d) is January 1, 2021, not
v: the year step plus day normalization loses the leap day. -/
theorem crm_c3_counterexample :
    ValidInstant ⟨2020, 0, 366, 0, 0, false⟩ ∧
    (⟨1, 0, 0, 0, 0, true⟩ : CrmTime).months = 0 ∧
    (⟨1, 0, 0, 0, 0, true⟩ : CrmTime).duration = true ∧
    ¬((crm_time_subtract (crm_time_add ⟨2020, 0, 366, 0, 0, false⟩ ⟨1, 0, 0, 0, 0, true⟩)
          ⟨1, 0, 0, 0, 0, true⟩).years = 2020 ∧
      (crm_time_subtract (crm_time_add ⟨2020, 0, 366, 0, 0, false⟩ ⟨1, 0, 0, 0, 0, true⟩)
          ⟨1, 0, 0, 0, 0, true⟩).days = 366) := by
  decide

/-- C3 (amended): subtract(add(v, d), d) returns v (on years, days,
seconds and offset) for every valid instant v and every duration d whose
months and years fields are both zero and whose offset is zero. -/
theorem crm_c3_amended (v d : CrmTime) (h : ValidInstant v) (hm : d.months = 0)
    (hy : d.years = 0) (ho : d.offset = 0) :
    (crm_time_subtract (crm_time_add v d) d).years = v.years ∧
    (crm_time_subtract (crm_time_add v d) d).days = v.days ∧
    (crm_time_subtract (crm_time_add v d) d).seconds = v.seconds ∧
    (crm_time_subtract (crm_time_add v d) d).offset = v.offset := by
  obtain ⟨hck, hvy, hvm, hvd⟩ := h
  rw [crm_time_check_iff] at hck
  obtain ⟨hc1, hc2, hc3, hc4⟩ := hck
  set V : CrmTime := ⟨v.years, v.months, v.days, v.seconds, v.offset, false⟩ with hV
  have hutc : crm_get_utc_time d = ⟨0, 0, d.days, d.seconds, 0, false⟩ := by
    unfold crm_get_utc_time
    rw [ho]
    rw [if_neg (by norm_num : ¬((0 : Int) ≠ 0))]
    rw [hy, hm]
  have hadd : crm_time_add v d =
      crm_time_add_seconds (crm_time_add_days V d.days) d.seconds := by
    simp only [crm_time_add, hutc]
    dsimp only [crm_time_set]
    rw [Int.add_zero]
    rw [crm_time_add_months_zero V hvy hc1 hc2]
  have hsub : ∀ X : CrmTime, crm_time_subtract X d =
      crm_time_add_seconds
        (crm_time_add_days ⟨X.years, X.months, X.days, X.seconds, X.offset, false⟩
          (-d.days)) (-d.seconds) := by
    intro X
    simp only [crm_time_subtract, hutc]
    dsimp only [crm_time_set]
    rw [if_neg (by norm_num : ¬((0 : Int) ≠ 0))]
    rw [Int.sub_zero]
  obtain ⟨t1, g1, l1, s1, m1, o1, u1⟩ := crm_time_add_days_spec V d.days rfl
  obtain ⟨t2, g2, l2, p2, q2, m2, o2, u2⟩ :=
    crm_time_add_seconds_spec (crm_time_add_days V d.days) d.seconds (by rw [u1])
  set R := crm_time_add_seconds (crm_time_add_days V d.days) d.seconds with hR
  set R2 : CrmTime := ⟨R.years, R.months, R.days, R.seconds, R.offset, false⟩ with hR2
  obtain ⟨t3, g3, l3, s3, m3, o3, u3⟩ := crm_time_add_days_spec R2 (-d.days) rfl
  obtain ⟨t4, g4, l4, p4, q4, m4, o4, u4⟩ :=
    crm_time_add_seconds_spec (crm_time_add_days R2 (-d.days)) (-d.seconds) (by rw [u3])
  have hR2tl : timelineVal R2 = timelineVal R := rfl
  have htl : timelineVal (crm_time_add_seconds (crm_time_add_days R2 (-d.days)) (-d.seconds)) =
      timelineVal V := by
    rw [t4, t3, hR2tl, t2, t1]
    ring
  have hVvalid1 : 1 ≤ V.days := hc1
  have hVvalid2 : V.days ≤ year_days V.years := hc2
  have hVvalid3 : 0 ≤ V.seconds := hc3
  have hVvalid4 : V.seconds < 86400 := hc4
  obtain ⟨ey, ed, es⟩ := timeline_unique
    (crm_time_add_seconds (crm_time_add_days R2 (-d.days)) (-d.seconds)) V
    g4 l4 p4 q4 hVvalid1 hVvalid2 hVvalid3 hVvalid4 htl
  have eo : (crm_time_add_seconds (crm_time_add_days R2 (-d.days)) (-d.seconds)).offset =
      V.offset := by
    rw [o4, o3]
    show R.offset = V.offset
    rw [o2, o1]
  rw [hadd, hsub]
  exact ⟨ey, ed, es, eo⟩

/-- C3 (witness): the amended statement at March 1, 2020, 01:00 with the
duration P40DT2H (40 days, 7200 seconds). -/
theorem crm_c3_witness :
    ValidInstant ⟨2020, 0, 61, 3600, 0, false⟩ ∧
    ((crm_time_subtract (crm_time_add ⟨2020, 0, 61, 3600, 0, false⟩ ⟨0, 0, 40, 7200, 0, true⟩)
        ⟨0, 0, 40, 7200, 0, true⟩).years = (⟨2020, 0, 61, 3600, 0, false⟩ : CrmTime).years ∧
     (crm_time_subtract (crm_time_add ⟨2020, 0, 61, 3600, 0, false⟩ ⟨0, 0, 40, 7200, 0, true⟩)
        ⟨0, 0, 40, 7200, 0, true⟩).days = (⟨2020, 0, 61, 3600, 0, false⟩ : CrmTime).days ∧
     (crm_time_subtract (crm_time_add ⟨2020, 0, 61, 3600, 0, false⟩ ⟨0, 0, 40, 7200, 0, true⟩)
        ⟨0, 0, 40, 7200, 0, true⟩).seconds = (⟨2020, 0, 61, 3600, 0, false⟩ : CrmTime).seconds ∧
     (crm_time_subtract (crm_time_add ⟨2020, 0, 61, 3600, 0, false⟩ ⟨0, 0, 40, 7200, 0, true⟩)
        ⟨0, 0, 40, 7200, 0, true⟩).offset = (⟨2020, 0, 61, 3600, 0, false⟩ : CrmTime).offset) :=
  ⟨by decide, crm_c3_amended ⟨2020, 0, 61, 3600, 0, false⟩ ⟨0, 0, 40, 7200, 0, true⟩
    (by decide) rfl rfl rfl⟩

/-- C4 (counterexample): with host offset 0, the instants parsed from
"2020-02-29T12:00:00+02:00" and "2020-02-29T10:00:00Z" compare as 1, not
0 — the parser recognizes a timezone suffix only after a literal Z or a
space, so "+02:00" is dropped and the host offset substituted. -/
theorem crm_c4_counterexample :
    crm_time_compare (parse_date 0 someNow ( "2020-02-29T12:00:00+02:00"))
      (parse_date 0 someNow ( "2020-02-29T10:00:00Z")) = 1 := by
  decide

/-- C4 (amended): crm_time_compare is the sign of the lexicographic
comparison of the UTC-normalized (years, days, seconds) triples, nulls
ordered as stated; the concrete pair compares equal exactly when the
ambient host offset supplies the +02:00 the parser ignored. -/
theorem crm_c4_amended :
    crm_time_compare none none = 0 ∧
    (∀ a : CrmTime, crm_time_compare none (some a) = -1 ∧
      crm_time_compare (some a) none = 1) ∧
    (∀ a b : CrmTime, crm_time_compare (some a) (some b) =
      specLexCompare (utcTriple a) (utcTriple b)) ∧
    crm_time_compare (parse_date 7200 someNow ( "2020-02-29T12:00:00+02:00"))
      (parse_date 7200 someNow ( "2020-02-29T10:00:00Z")) = 0 :=
  ⟨rfl, fun _ => ⟨rfl, rfl⟩, compare_eq_lex, by decide⟩

/-- C5: the ISO week branch of parse_date performs exactly the stated
conversion, and the two boundary strings resolve to the stated Gregorian
dates. -/
theorem crm_c5_weekdate :
    (∀ y w d : Int, parseWeekBranch y w d = specWeekConversion y w d) ∧
    parse_date 0 someNow ( "2009-W53-7") = some ⟨2010, 0, 3, 0, 0, false⟩ ∧
    crm_time_get_gregorian ⟨2010, 0, 3, 0, 0, false⟩ = (2010, 1, 3) ∧
    parse_date 0 someNow ( "2009-W01-1") = some ⟨2008, 0, 364, 0, 0, false⟩ ∧
    crm_time_get_gregorian ⟨2008, 0, 364, 0, 0, false⟩ = (2008, 12, 29) :=
  ⟨parseWeekBranch_eq_spec, by decide, by decide, by decide, by decide⟩

/-- C6: crm_time_add_months keeps every valid instant valid, and the
day-of-month clamp gives Jan 31 + 1 month = Feb 28 in 2019 and Feb 29 in
2020. -/
theorem crm_c6_add_months (v : CrmTime) (n : Int) (h : ValidInstant v) :
    crm_time_check (crm_time_add_months v n) = true ∧
    crm_time_add_months ⟨2019, 0, 31, 0, 0, false⟩ 1 = ⟨2019, 0, 59, 0, 0, false⟩ ∧
    crm_time_get_gregorian ⟨2019, 0, 59, 0, 0, false⟩ = (2019, 2, 28) ∧
    crm_time_add_months ⟨2020, 0, 31, 0, 0, false⟩ 1 = ⟨2020, 0, 60, 0, 0, false⟩ ∧
    crm_time_get_gregorian ⟨2020, 0, 60, 0, 0, false⟩ = (2020, 2, 29) := by
  obtain ⟨hc, hy, hm, hd⟩ := h
  rw [crm_time_check_iff] at hc
  exact ⟨crm_time_add_months_check v n hy hc.1 hc.2.1 hc.2.2.1 hc.2.2.2,
    by decide, by decide, by decide, by decide⟩

/-- C6 (witness): the statement at January 31, 2019 with n = 1. -/
theorem crm_c6_witness :
    ValidInstant ⟨2019, 0, 31, 0, 0, false⟩ ∧
    crm_time_check (crm_time_add_months ⟨2019, 0, 31, 0, 0, false⟩ 1) = true :=
  ⟨by decide, (crm_c6_add_months ⟨2019, 0, 31, 0, 0, false⟩ 1 (by decide)).1⟩

/-- C7: P1Y2M10DT2H30M parses with M as months before T and minutes
after, and applied to 2020-01-31T00:00:00Z — years, months (with the
February clamp), days, seconds in that order — yields
2021-04-10 02:30:00Z. -/
theorem crm_c7_duration_applied :
    crm_time_parse_duration ( "P1Y2M10DT2H30M") = some ⟨1, 2, 10, 9000, 0, false⟩ ∧
    parse_date 0 someNow ( "2020-01-31T00:00:00Z") = some ⟨2020, 0, 31, 0, 0, false⟩ ∧
    crm_time_add ⟨2020, 0, 31, 0, 0, false⟩ ⟨1, 2, 10, 9000, 0, false⟩ =
      ⟨2021, 0, 100, 9000, 0, false⟩ ∧
    crm_time_get_gregorian ⟨2021, 0, 100, 9000, 0, false⟩ = (2021, 4, 10) ∧
    crm_time_get_timeofday ⟨2021, 0, 100, 9000, 0, false⟩ = (2, 30, 0) ∧
    crm_time_as_string (some ⟨2021, 0, 100, 9000, 0, false⟩) flagsDateTimeZone =
      some ("2021-04-10 02:30:00Z") := by
  decide

/-- C8: "epoch" parses to {1970, day 1, 0 seconds, offset 0}, formats as
"1970-01-01 00:00:00Z", and its seconds-from-origin value is exactly the
constant 62135596800, so seconds-since-epoch is 0. -/
theorem crm_c8_epoch :
    parse_date 0 someNow ( "epoch") = some ⟨1970, 0, 1, 0, 0, false⟩ ∧
    crm_time_as_string (some ⟨1970, 0, 1, 0, 0, false⟩) flagsDateTimeZone =
      some ("1970-01-01 00:00:00Z") ∧
    crm_time_get_seconds ⟨1970, 0, 1, 0, 0, false⟩ = 62135596800 ∧
    crm_time_get_seconds_since_epoch ⟨1970, 0, 1, 0, 0, false⟩ = 0 := by
  refine ⟨by decide, by decide, epoch_seconds_value, ?_⟩
  unfold crm_time_get_seconds_since_epoch
  rw [epoch_seconds_value]
  norm_num

/-- C9: crm_time_compare never reads the months field — values equal on
years, days, seconds and offset compare as 0 whatever their months. -/
theorem crm_c9_months_ignored (a b : CrmTime) (h1 : a.years = b.years) (h2 : a.days = b.days)
    (h3 : a.seconds = b.seconds) (h4 : a.offset = b.offset) :
    crm_time_compare (some a) (some b) = 0 := by
  have ht : utcTriple a = utcTriple b := by
    unfold utcTriple crm_get_utc_time
    rw [h1, h2, h3, h4]
    split_ifs <;> rfl
  rw [compare_eq_lex, ht]
  unfold specLexCompare
  split_ifs <;> omega

/-- C9 (witness): the durations P1M and P2M differ only in months and
compare as equal. -/
theorem crm_c9_witness :
    crm_time_compare (some ⟨0, 1, 0, 0, 0, true⟩) (some ⟨0, 2, 0, 0, 0, true⟩) = 0 :=
  crm_c9_months_ignored ⟨0, 1, 0, 0, 0, true⟩ ⟨0, 2, 0, 0, 0, true⟩ rfl rfl rfl rfl

/-- C10: formatting a null value returns the empty string, never null,
whatever the flags. -/
theorem crm_c10_null_format (flags : FormatFlags) :
    crm_time_as_string none flags = some ("") := rfl
